import Mathlib

/-!
# Wasm builtins and the retrying allocation wrapper

A shallow embedding of `src/builtins/builtins-wasm-gen.cc` and of the test
`test/cctest/test-alloc.cc`.

* Machine words are natural numbers holding the bit pattern, reduced modulo
  `2 ^ width` after every arithmetic operation; `toSigned` reads a pattern as a
  two's complement integer.
* Constants that the builtins read from headers outside these two files
  (`Smi::kMaxValue`, `kObjectAlignmentMask`, `WasmArray::kHeaderSize`,
  `wasm::kV8MaxWasmTableSize`, ...) are fields of `Platform`.
* Calls that leave the file (the runtime, the own-property lookup) are recorded
  in the `Execution` a builtin produces; their answers come from an oracle
  argument.
* The allocation builtins are given over `Allocate`, which always hands back an
  object, and over an arbitrary allocator, which may refuse a request.
-/

namespace V8

/-! ## Build configuration -/

/-- Constants of the build that the builtins read but do not define. -/
structure Platform where
  /-- Answer of `Is64()`: the target has 64-bit words. -/
  Is64 : Bool
  /-- Number of value bits of a Smi (`kSmiValueSize`). -/
  kSmiValueSize : Nat
  /-- Objects are aligned to `2 ^ kObjectAlignmentBits` bytes. -/
  kObjectAlignmentBits : Nat
  /-- Tagged slots are `2 ^ kTaggedSizeLog2` bytes wide. -/
  kTaggedSizeLog2 : Nat
  /-- The constant `WasmArray::kHeaderSize`. -/
  WasmArray_kHeaderSize : Nat
  /-- The constant `WasmArray::kLengthOffset`. -/
  WasmArray_kLengthOffset : Nat
  /-- The constant `wasm::kV8MaxWasmTableSize`. -/
  kV8MaxWasmTableSize : Nat
  /-- The constant `FIRST_JS_RECEIVER_TYPE`. -/
  FIRST_JS_RECEIVER_TYPE : Nat
deriving DecidableEq, Repr

namespace Platform

/-- Answer of `Is32()`. -/
def Is32 (p : Platform) : Bool := !p.Is64

/-- Width in bits of `IntPtrT` / `WordT`. -/
def kBitsPerSystemPointer (p : Platform) : Nat := if p.Is64 then 64 else 32

/-- The constant `kObjectAlignment`, `1 << kObjectAlignmentBits`. -/
def kObjectAlignment (p : Platform) : Nat := 2 ^ p.kObjectAlignmentBits

/-- The constant `kObjectAlignmentMask`, `kObjectAlignment - 1`. -/
def kObjectAlignmentMask (p : Platform) : Nat := p.kObjectAlignment - 1

end Platform

/-- A 64-bit build without pointer compression. -/
def x64 : Platform where
  Is64 := true
  kSmiValueSize := 32
  kObjectAlignmentBits := 3
  kTaggedSizeLog2 := 3
  WasmArray_kHeaderSize := 16
  WasmArray_kLengthOffset := 8
  kV8MaxWasmTableSize := 10000000
  FIRST_JS_RECEIVER_TYPE := 1024

/-- A 32-bit build. -/
def ia32 : Platform where
  Is64 := false
  kSmiValueSize := 31
  kObjectAlignmentBits := 2
  kTaggedSizeLog2 := 2
  WasmArray_kHeaderSize := 8
  WasmArray_kLengthOffset := 4
  kV8MaxWasmTableSize := 10000000
  FIRST_JS_RECEIVER_TYPE := 1024

/-! ## Machine integers -/

/-- Two's complement reading of the low `bits` bits of `x`. -/
def toSigned (bits : Nat) (x : Nat) : Int :=
  if x % 2 ^ bits < 2 ^ (bits - 1) then ((x % 2 ^ bits : Nat) : Int)
  else ((x % 2 ^ bits : Nat) : Int) - ((2 ^ bits : Nat) : Int)

/-- Bit pattern of width `bits` of the integer `v`. -/
def ofSigned (bits : Nat) (v : Int) : Nat := (v % ((2 ^ bits : Nat) : Int)).toNat

/-- The node `Uint32Constant(c)`. -/
def Uint32Constant (c : Nat) : Nat := c % 2 ^ 32

/-- The node `Uint32LessThan(a, b)`. -/
def Uint32LessThan (a b : Nat) : Bool := decide (a < b)

/-- The node `SelectConstant(condition, true_value, false_value)`. -/
def SelectConstant {α : Type} (condition : Bool) (true_value false_value : α) : α :=
  if condition then true_value else false_value

/-- The node `IntPtrConstant(c)`: the word holding the integer `c`. -/
def IntPtrConstant (p : Platform) (c : Int) : Nat := ofSigned p.kBitsPerSystemPointer c

/-- The node `IntPtrMul(a, b)`: word multiplication, wrapping. -/
def IntPtrMul (p : Platform) (a b : Nat) : Nat := (a * b) % 2 ^ p.kBitsPerSystemPointer

/-- The node `IntPtrAdd(a, b)`: word addition, wrapping. -/
def IntPtrAdd (p : Platform) (a b : Nat) : Nat := (a + b) % 2 ^ p.kBitsPerSystemPointer

/-- The node `WordAnd(a, b)`: bitwise and of two words. -/
def WordAnd (a b : Nat) : Nat := a &&& b

/-- The node `TruncateIntPtrToInt32(w)`: the low 32 bits of a word. -/
def TruncateIntPtrToInt32 (w : Nat) : Nat := w % 2 ^ 32

/-- The node `Unsigned(v)`: an `Int32T` read as `Uint32T`. -/
def Unsigned (v : Int) : Nat := ofSigned 32 v

/-! ## Small integers -/

/-- A `TNode<Smi>`, identified with the integer it encodes. -/
structure Smi where
  /-- The encoded integer, `Smi::value()`. -/
  value : Int
deriving DecidableEq, Repr

namespace Smi

/-- The constant `Smi::kMaxValue`, `2 ^ (kSmiValueSize - 1) - 1`. -/
def kMaxValue (p : Platform) : Int := 2 ^ (p.kSmiValueSize - 1) - 1

/-- The function `Smi::FromInt`. -/
def FromInt (v : Int) : Smi := ⟨v⟩

end Smi

/-- Modelled from the spec: `CodeStubAssembler::SmiFromUint32` is not part of the
sources at hand. The value is "reinterpreted into the compact signed range":
its low `kSmiValueSize` bits are kept and read as a two's complement integer, so
an input above `Smi::kMaxValue` would come out small or negative. -/
def SmiFromUint32 (p : Platform) (value : Nat) : Smi := ⟨toSigned p.kSmiValueSize value⟩

/-- The node `SmiToInt32(s)`: the value of a Smi as an `Int32T`. -/
def SmiToInt32 (s : Smi) : Int := toSigned 32 (ofSigned 32 s.value)

/-- The node `SmiUntag(s)`: the value of a Smi as a word. -/
def SmiUntag (p : Platform) (s : Smi) : Nat := ofSigned p.kBitsPerSystemPointer s.value

/-- `WasmBuiltinsAssembler::SmiFromUint32WithSaturation` (lines 41-47). The
`DCHECK_LE(max, Smi::kMaxValue)` is a precondition of the callers. -/
def SmiFromUint32WithSaturation (p : Platform) (value : Nat) (max : Nat) : Smi :=
  let capped_value :=
    SelectConstant (Uint32LessThan value (Uint32Constant max)) value (Uint32Constant max)
  SmiFromUint32 p capped_value

/-! ## Heap values and the instance -/

/-- A type descriptor: the fields of a `Map` that the builtins read. -/
structure Map where
  /-- Result of `LoadMapInstanceType`. -/
  instance_type : Nat
  /-- Result of `LoadMapInstanceSizeInWords`. -/
  instance_size_in_words : Nat
deriving DecidableEq, Repr

/-- A `TNode<Object>`: a Smi or a pointer to a heap object, which carries its map. -/
inductive Object
  | Smi (smi : V8.Smi)
  | HeapObject (address : Nat) (map : Map)
deriving DecidableEq, Repr

/-- A `TNode<NativeContext>` / `TNode<Context>`. -/
structure NativeContext where
  /-- Identity of the context. -/
  address : Nat
deriving DecidableEq, Repr

/-- A `TNode<Name>`. -/
structure Name where
  /-- Identity of the unique name. -/
  address : Nat
deriving DecidableEq, Repr

/-- The fields of a `WasmInstanceObject` that the builtins load. -/
structure WasmInstanceObject where
  /-- Field at `kNativeContextOffset`. -/
  native_context : NativeContext
  /-- Field at `kTablesOffset`. -/
  tables : List Object
  /-- Field at `kWasmExternalFunctionsOffset`. -/
  wasm_external_functions : List Object
  /-- Field at `kManagedObjectMapsOffset`: the map registry. -/
  managed_object_maps : List Map
deriving DecidableEq, Repr

/-- The calling frame: the slot at `WasmCompiledFrameConstants::kWasmInstanceOffset`
and the undefined value of the roots table. -/
structure Frame where
  /-- Instance stored in the parent frame. -/
  wasm_instance : WasmInstanceObject
  /-- The root `undefined_value`. -/
  undefined_value : Object
deriving DecidableEq, Repr

/-- `WasmBuiltinsAssembler::LoadInstanceFromFrame` (lines 17-20). -/
def LoadInstanceFromFrame (frame : Frame) : WasmInstanceObject := frame.wasm_instance

/-- `WasmBuiltinsAssembler::LoadContextFromInstance` (lines 22-27). -/
def LoadContextFromInstance (instance_object : WasmInstanceObject) : NativeContext :=
  instance_object.native_context

/-- `WasmBuiltinsAssembler::LoadTablesFromInstance` (lines 29-33). -/
def LoadTablesFromInstance (instance_object : WasmInstanceObject) : List Object :=
  instance_object.tables

/-- `WasmBuiltinsAssembler::LoadExternalFunctionsFromInstance` (lines 35-39). -/
def LoadExternalFunctionsFromInstance (instance_object : WasmInstanceObject) : List Object :=
  instance_object.wasm_external_functions

/-- The node `UndefinedConstant()`. -/
def UndefinedConstant (frame : Frame) : Object := frame.undefined_value

/-- The node `TaggedIsSmi(object)`. -/
def TaggedIsSmi : Object → Bool
  | .Smi _ => true
  | .HeapObject _ _ => false

/-- The node `IsUndefined(object)`: identity with the undefined root. -/
def IsUndefined (frame : Frame) (object : Object) : Bool :=
  decide (object = UndefinedConstant frame)

/-- The node `LoadMap(object)`; a Smi has no map. -/
def LoadMap : Object → Option Map
  | .Smi _ => none
  | .HeapObject _ map => some map

/-- The node `LoadMapInstanceType(map)`. -/
def LoadMapInstanceType (map : Map) : Nat := map.instance_type

/-- The node `LoadMapInstanceSizeInWords(map)`, as a word. -/
def LoadMapInstanceSizeInWords (p : Platform) (map : Map) : Nat :=
  map.instance_size_in_words % 2 ^ p.kBitsPerSystemPointer

/-- The node `IsJSReceiverInstanceType(instance_type)`: the receiver types are the
last ones, from `FIRST_JS_RECEIVER_TYPE` on. -/
def IsJSReceiverInstanceType (p : Platform) (instance_type : Nat) : Bool :=
  decide (p.FIRST_JS_RECEIVER_TYPE ≤ instance_type)

/-- The node `TimesTaggedSize(w)`: a left shift by `kTaggedSizeLog2`, wrapping. -/
def TimesTaggedSize (p : Platform) (w : Nat) : Nat :=
  (w * 2 ^ p.kTaggedSizeLog2) % 2 ^ p.kBitsPerSystemPointer

/-- The node `LoadFixedArrayElement(array, index)` for a Smi index; nothing is
loaded for an index outside the array. -/
def LoadFixedArrayElement {α : Type} (array : List α) (index : Smi) : Option α :=
  if 0 ≤ index.value then array[index.value.toNat]? else none

/-! ## Calls that leave the builtins -/

/-- The runtime functions the builtins call. -/
inductive Runtime
  | kWasmAtomicNotify
  | kWasmI32AtomicWait
  | kWasmI64AtomicWait
  | kWasmTableInit
  | kWasmTableCopy
deriving DecidableEq, Repr

/-- A value handed to the runtime. -/
inductive Tagged
  | Instance (instance_object : WasmInstanceObject)
  | Smi (smi : V8.Smi)
  | Number (value : Int)
  | BigInt (value : Int)
deriving DecidableEq, Repr

/-- One `CallRuntime` / `TailCallRuntime`: function, context and the arguments in
the order written. -/
structure RuntimeCall where
  /-- The runtime function. -/
  function_id : Runtime
  /-- The context argument. -/
  context : NativeContext
  /-- The remaining arguments, in order. -/
  args : List Tagged
deriving DecidableEq, Repr

/-- The three exits of `TryGetOwnProperty`. -/
inductive LookupResult
  | if_found (var_value : Object)
  | if_not_found
  | if_bailout
deriving DecidableEq, Repr

/-- The arguments of one `TryGetOwnProperty`. -/
structure LookupQuery where
  /-- The context. -/
  context : NativeContext
  /-- The receiver. -/
  receiver : Object
  /-- The holder. -/
  object : Object
  /-- The map of the holder. -/
  map : Map
  /-- The instance type of the holder. -/
  instance_type : Nat
  /-- The property name. -/
  unique_name : Name
deriving DecidableEq, Repr

/-- A call made while a builtin runs. -/
inductive ExternalCall
  | CallRuntime (call : RuntimeCall)
  | TryGetOwnProperty (query : LookupQuery)
deriving DecidableEq, Repr

/-- How a builtin ends. -/
inductive Completion (α : Type)
  | Return (value : α)
  | TailCallRuntime (call : RuntimeCall)
  | Unreachable
deriving DecidableEq, Repr

/-- A run of a builtin: the calls it made, in order, and how it ended. -/
structure Execution (α : Type) where
  /-- Calls made before the end. -/
  calls : List ExternalCall
  /-- The end of the run. -/
  completion : Completion α
deriving DecidableEq, Repr

/-- Modelled from the spec: `ChangeUint32ToTagged` is not part of the sources at
hand; it "converts to heap numeric form", keeping the numeric value. -/
def ChangeUint32ToTagged (value : Nat) : Tagged := .Number (value % 2 ^ 32 : Nat)

/-- Modelled from the spec: `ChangeInt32ToTagged` is not part of the sources at
hand; it "converts to heap numeric form", keeping the numeric value. -/
def ChangeInt32ToTagged (value : Int) : Tagged := .Number (toSigned 32 (ofSigned 32 value))

/-- Modelled from the spec: `BigIntFromInt32Pair` is not part of the sources at
hand; it "reassembles split 32-bit halves into a single wide integer". -/
def BigIntFromInt32Pair (low high : Nat) : Tagged :=
  .BigInt (toSigned 64 ((high % 2 ^ 32) * 2 ^ 32 + low % 2 ^ 32))

/-- Modelled from the spec: `BigIntFromInt64` is not part of the sources at hand;
the 64-bit word is read as a signed integer. -/
def BigIntFromInt64 (raw : Nat) : Tagged := .BigInt (toSigned 64 raw)

/-! ## The managed heap -/

/-- A heap-resident value: its byte size, its map once stored, and the raw
fields written so far as (offset, value) pairs, latest first. -/
structure HeapObject where
  /-- Size in bytes that was requested for the object. -/
  size : Nat
  /-- The map, absent until `StoreMap`. -/
  map : Option Map
  /-- Raw field stores. -/
  fields : List (Nat × Nat)
deriving DecidableEq, Repr

/-- The heap: the objects allocated so far, oldest first. An object is named by
its position. -/
structure ManagedHeap where
  /-- Allocated objects. -/
  objects : List HeapObject
deriving DecidableEq, Repr

/-- Apply `f` to the element at position `n`, if there is one. -/
def modifyNth {α : Type} (f : α → α) : List α → Nat → List α
  | [], _ => []
  | x :: xs, 0 => f x :: xs
  | x :: xs, n + 1 => x :: modifyNth f xs n

/-- Modelled from the spec: `CodeStubAssembler::Allocate` is not part of the
sources at hand. The request yields a new object of exactly the requested size
"in a well-defined pre-construction state", without map or fields; exhaustion is
resolved inside the allocator (collect and retry, or a fatal out-of-memory
report) and is never returned to the builtin. -/
def Allocate (heap : ManagedHeap) (size_in_bytes : Nat) : Nat × ManagedHeap :=
  (heap.objects.length, ⟨heap.objects ++ [⟨size_in_bytes, none, []⟩]⟩)

/-- The node `StoreMap(object, map)`. -/
def StoreMap (heap : ManagedHeap) (object : Nat) (map : Map) : ManagedHeap :=
  ⟨modifyNth (fun o => ⟨o.size, some map, o.fields⟩) heap.objects object⟩

/-- The node `StoreObjectFieldNoWriteBarrier(object, offset, value)`. -/
def StoreObjectFieldNoWriteBarrier (heap : ManagedHeap) (object : Nat) (offset : Nat)
    (value : Nat) : ManagedHeap :=
  ⟨modifyNth (fun o => ⟨o.size, o.map, (offset, value) :: o.fields⟩) heap.objects object⟩

/-! ## The builtins -/

/-- `TF_BUILTIN(WasmGetOwnProperty)` (lines 59-88). The answer of
`TryGetOwnProperty` comes from the oracle of that name. -/
def WasmGetOwnProperty (p : Platform) (frame : Frame)
    (TryGetOwnProperty : LookupQuery → LookupResult)
    (object : Object) (unique_name : Name) (context : NativeContext) : Execution Object :=
  let if_not_found : Execution Object := ⟨[], .Return (UndefinedConstant frame)⟩
  if TaggedIsSmi object then if_not_found
  else if IsUndefined frame object then if_not_found
  else
    match LoadMap object with
    | none => if_not_found
    | some map =>
      let instance_type := LoadMapInstanceType map
      if !IsJSReceiverInstanceType p instance_type then if_not_found
      else
        let query : LookupQuery := ⟨context, object, object, map, instance_type, unique_name⟩
        match TryGetOwnProperty query with
        | .if_found var_value => ⟨[.TryGetOwnProperty query], .Return var_value⟩
        | .if_not_found => ⟨[.TryGetOwnProperty query], .Return (UndefinedConstant frame)⟩
        | .if_bailout => ⟨[.TryGetOwnProperty query], .Unreachable⟩

/-- `TF_BUILTIN(WasmAtomicNotify)` (lines 90-104). -/
def WasmAtomicNotify (CallRuntime : RuntimeCall → Smi) (frame : Frame)
    (address count : Nat) : Execution Nat :=
  let instance_object := LoadInstanceFromFrame frame
  let address_number := ChangeUint32ToTagged address
  let count_number := ChangeUint32ToTagged count
  let context := LoadContextFromInstance instance_object
  let call : RuntimeCall :=
    ⟨.kWasmAtomicNotify, context, [.Instance instance_object, address_number, count_number]⟩
  let result_smi := CallRuntime call
  ⟨[.CallRuntime call], .Return (Unsigned (SmiToInt32 result_smi))⟩

/-- `TF_BUILTIN(WasmI32AtomicWait32)` (lines 106-133). -/
def WasmI32AtomicWait32 (p : Platform) (CallRuntime : RuntimeCall → Smi) (frame : Frame)
    (address : Nat) (expected_value : Int) (timeout_low timeout_high : Nat) : Execution Nat :=
  if !p.Is32 then ⟨[], .Unreachable⟩
  else
    let address_number := ChangeUint32ToTagged address
    let expected_value_number := ChangeInt32ToTagged expected_value
    let timeout := BigIntFromInt32Pair timeout_low timeout_high
    let instance_object := LoadInstanceFromFrame frame
    let context := LoadContextFromInstance instance_object
    let call : RuntimeCall :=
      ⟨.kWasmI32AtomicWait, context,
        [.Instance instance_object, address_number, expected_value_number, timeout]⟩
    let result_smi := CallRuntime call
    ⟨[.CallRuntime call], .Return (Unsigned (SmiToInt32 result_smi))⟩

/-- `TF_BUILTIN(WasmI32AtomicWait64)` (lines 135-160). -/
def WasmI32AtomicWait64 (p : Platform) (CallRuntime : RuntimeCall → Smi) (frame : Frame)
    (address : Nat) (expected_value : Int) (timeout_raw : Nat) : Execution Nat :=
  if !p.Is64 then ⟨[], .Unreachable⟩
  else
    let address_number := ChangeUint32ToTagged address
    let expected_value_number := ChangeInt32ToTagged expected_value
    let timeout := BigIntFromInt64 timeout_raw
    let instance_object := LoadInstanceFromFrame frame
    let context := LoadContextFromInstance instance_object
    let call : RuntimeCall :=
      ⟨.kWasmI32AtomicWait, context,
        [.Instance instance_object, address_number, expected_value_number, timeout]⟩
    let result_smi := CallRuntime call
    ⟨[.CallRuntime call], .Return (Unsigned (SmiToInt32 result_smi))⟩

/-- `TF_BUILTIN(WasmI64AtomicWait32)` (lines 162-192). -/
def WasmI64AtomicWait32 (p : Platform) (CallRuntime : RuntimeCall → Smi) (frame : Frame)
    (address : Nat) (expected_value_low expected_value_high : Nat)
    (timeout_low timeout_high : Nat) : Execution Nat :=
  if !p.Is32 then ⟨[], .Unreachable⟩
  else
    let address_number := ChangeUint32ToTagged address
    let expected_value := BigIntFromInt32Pair expected_value_low expected_value_high
    let timeout := BigIntFromInt32Pair timeout_low timeout_high
    let instance_object := LoadInstanceFromFrame frame
    let context := LoadContextFromInstance instance_object
    let call : RuntimeCall :=
      ⟨.kWasmI64AtomicWait, context,
        [.Instance instance_object, address_number, expected_value, timeout]⟩
    let result_smi := CallRuntime call
    ⟨[.CallRuntime call], .Return (Unsigned (SmiToInt32 result_smi))⟩

/-- `TF_BUILTIN(WasmI64AtomicWait64)` (lines 194-219). -/
def WasmI64AtomicWait64 (p : Platform) (CallRuntime : RuntimeCall → Smi) (frame : Frame)
    (address : Nat) (expected_value_raw : Nat) (timeout_raw : Nat) : Execution Nat :=
  if !p.Is64 then ⟨[], .Unreachable⟩
  else
    let address_number := ChangeUint32ToTagged address
    let expected_value := BigIntFromInt64 expected_value_raw
    let timeout := BigIntFromInt64 timeout_raw
    let instance_object := LoadInstanceFromFrame frame
    let context := LoadContextFromInstance instance_object
    let call : RuntimeCall :=
      ⟨.kWasmI64AtomicWait, context,
        [.Instance instance_object, address_number, expected_value, timeout]⟩
    let result_smi := CallRuntime call
    ⟨[.CallRuntime call], .Return (Unsigned (SmiToInt32 result_smi))⟩

/-- The constant `kCap` of `WasmTableInit` and `WasmTableCopy`,
`static_cast<uint32_t>(wasm::kV8MaxWasmTableSize + 1)`. -/
def kCap (p : Platform) : Nat := (p.kV8MaxWasmTableSize + 1) % 2 ^ 32

/-- `TF_BUILTIN(WasmTableInit)` (lines 221-246). The `STATIC_ASSERT` that
`Smi::kMaxValue >= wasm::kV8MaxWasmTableSize + 1` constrains the build. -/
def WasmTableInit (p : Platform) (frame : Frame) (dst_raw src_raw size_raw : Nat)
    (table_index segment_index : Smi) : Execution Unit :=
  let dst := SmiFromUint32WithSaturation p dst_raw (kCap p)
  let src := SmiFromUint32WithSaturation p src_raw (kCap p)
  let size := SmiFromUint32WithSaturation p size_raw (kCap p)
  let instance_object := LoadInstanceFromFrame frame
  let context := LoadContextFromInstance instance_object
  ⟨[], .TailCallRuntime ⟨.kWasmTableInit, context,
    [.Instance instance_object, .Smi table_index, .Smi segment_index,
      .Smi dst, .Smi src, .Smi size]⟩⟩

/-- `TF_BUILTIN(WasmTableCopy)` (lines 248-279). -/
def WasmTableCopy (p : Platform) (frame : Frame) (dst_raw src_raw size_raw : Nat)
    (dst_table src_table : Smi) : Execution Unit :=
  let dst := SmiFromUint32WithSaturation p dst_raw (kCap p)
  let src := SmiFromUint32WithSaturation p src_raw (kCap p)
  let size := SmiFromUint32WithSaturation p size_raw (kCap p)
  let instance_object := LoadInstanceFromFrame frame
  let context := LoadContextFromInstance instance_object
  ⟨[], .TailCallRuntime ⟨.kWasmTableCopy, context,
    [.Instance instance_object, .Smi dst_table, .Smi src_table,
      .Smi dst, .Smi src, .Smi size]⟩⟩

/-- The size computation of `WasmAllocateArray` (lines 289-297):
`raw_size`, `rounded_size` and `instance_size`, each a word. -/
def WasmArrayInstanceSize (p : Platform) (element_size length : Smi) : Nat :=
  let untagged_length := SmiUntag p length
  let raw_size := IntPtrMul p (SmiUntag p element_size) untagged_length
  let rounded_size :=
    WordAnd (IntPtrAdd p raw_size (IntPtrConstant p p.kObjectAlignmentMask))
      (IntPtrConstant p (-(p.kObjectAlignmentMask : Int) - 1))
  IntPtrAdd p (IntPtrConstant p p.WasmArray_kHeaderSize) rounded_size

/-- `TF_BUILTIN(WasmAllocateArray)` (lines 281-303): the new object and the heap
after the builtin; nothing when the map index is outside the registry. -/
def WasmAllocateArray (p : Platform) (frame : Frame) (heap : ManagedHeap)
    (map_index length element_size : Smi) : Option (Nat × ManagedHeap) :=
  let instance_object := LoadInstanceFromFrame frame
  let maps_list := instance_object.managed_object_maps
  match LoadFixedArrayElement maps_list map_index with
  | none => none
  | some map =>
    let untagged_length := SmiUntag p length
    let instance_size := WasmArrayInstanceSize p element_size length
    let (result, heap1) := Allocate heap instance_size
    let heap2 := StoreMap heap1 result map
    let heap3 := StoreObjectFieldNoWriteBarrier heap2 result p.WasmArray_kLengthOffset
      (TruncateIntPtrToInt32 untagged_length)
    some (result, heap3)

/-- `TF_BUILTIN(WasmAllocateStruct)` (lines 305-316). -/
def WasmAllocateStruct (p : Platform) (frame : Frame) (heap : ManagedHeap)
    (map_index : Smi) : Option (Nat × ManagedHeap) :=
  let instance_object := LoadInstanceFromFrame frame
  let maps_list := instance_object.managed_object_maps
  match LoadFixedArrayElement maps_list map_index with
  | none => none
  | some map =>
    let instance_size := TimesTaggedSize p (LoadMapInstanceSizeInWords p map)
    let (result, heap1) := Allocate heap instance_size
    let heap2 := StoreMap heap1 result map
    some (result, heap2)

/-! ## The retrying allocation wrapper and its test -/

/-- Result of an allocation function: an object, or the signal to retry after a
collection (`Failure::RetryAfterGC(requested)`). -/
inductive AllocationResult (α : Type)
  | Success (object : α)
  | RetryAfterGC (requested : Nat)
deriving DecidableEq, Repr

/-- What the wrapper does, in order. -/
inductive HeapEvent
  | Invoke
  | CollectGarbage
deriving DecidableEq, Repr

/-- How the wrapper ends. -/
inductive CallOutcome (α : Type)
  | Returned (value : α)
  | FatalProcessOutOfMemory
deriving DecidableEq, Repr

/-- Modelled from the spec: the macro `CALL_HEAP_FUNCTION` is not part of the
sources at hand. The function is attempted; on `RetryAfterGC` "a collection pass"
is requested and the function is re-invoked "with the same arguments"; after
`retries` consecutive retries a further `RetryAfterGC` is "a fatal out-of-memory
condition". The result lists the events, the outcome and the final state. -/
def CALL_HEAP_FUNCTION {σ α : Type} (CollectGarbage : σ → σ)
    (FUNCTION_CALL : σ → AllocationResult α × σ) :
    Nat → σ → List HeapEvent × CallOutcome α × σ
  | 0, s =>
    match FUNCTION_CALL s with
    | (.Success object, s1) => ([.Invoke], .Returned object, s1)
    | (.RetryAfterGC _, s1) => ([.Invoke], .FatalProcessOutOfMemory, s1)
  | retries + 1, s =>
    match FUNCTION_CALL s with
    | (.Success object, s1) => ([.Invoke], .Returned object, s1)
    | (.RetryAfterGC _, s1) =>
      let r := CALL_HEAP_FUNCTION CollectGarbage FUNCTION_CALL retries (CollectGarbage s1)
      (.Invoke :: .CollectGarbage :: r.1, r.2)

/-- The state of the test: the function-local `static int attempts`. -/
structure TestState where
  /-- Calls of `AllocateAfterFailures` so far. -/
  attempts : Nat
deriving DecidableEq, Repr

/-- `AllocateAfterFailures` (test-alloc.cc, lines 37-88). The allocations of
lines 41-84 are `CHECK`ed calls into the heap, which end the process when one
fails; they do not touch `attempts` or the result. -/
def AllocateAfterFailures (s : TestState) : AllocationResult Object × TestState :=
  let attempts := s.attempts + 1
  if attempts < 3 then (.RetryAfterGC 0, ⟨attempts⟩)
  else (.Success (.Smi (Smi.FromInt 42)), ⟨attempts⟩)

/-- `Test` (test-alloc.cc, lines 90-92): `CALL_HEAP_FUNCTION(AllocateAfterFailures(), Object)`
from the initial `attempts = 0`; a collection leaves `attempts` alone. -/
def Test (retries : Nat) : List HeapEvent × CallOutcome Object × TestState :=
  CALL_HEAP_FUNCTION id AllocateAfterFailures retries ⟨0⟩

/-- The allocation function `FUNCTION_CALL`, started in state `s` with a
collection after each failure, reports `RetryAfterGC` exactly `k` times and then
succeeds with `object`, ending in state `final`. -/
def FailsThenSucceeds {σ α : Type} (CollectGarbage : σ → σ)
    (FUNCTION_CALL : σ → AllocationResult α × σ) : Nat → σ → α → σ → Prop
  | 0, s, object, final => FUNCTION_CALL s = (.Success object, final)
  | k + 1, s, object, final =>
    ∃ requested s1, FUNCTION_CALL s = (.RetryAfterGC requested, s1) ∧
      FailsThenSucceeds CollectGarbage FUNCTION_CALL k (CollectGarbage s1) object final

/-- The events of `k` failed attempts, each followed by a collection, and a last
attempt. -/
def retryEvents : Nat → List HeapEvent
  | 0 => [.Invoke]
  | k + 1 => .Invoke :: .CollectGarbage :: retryEvents k

/-- The function `RoundUp(x, m)` named in the comment of `WasmAllocateArray`
(lines 290-291), over unbounded integers. -/
def RoundUp (x : Int) (m : Nat) : Int := (x + ((m : Int) - 1)) / (m : Int) * (m : Int)

/-! ## The allocation builtins over an arbitrary allocator -/

/-- The allocator as a builtin sees it: for a heap and a size in bytes, the new
object and the heap after it, or nothing when the allocator ends the process
with a fatal out-of-memory report. -/
abbrev Allocator := ManagedHeap → Nat → Option (Nat × ManagedHeap)

/-- `TF_BUILTIN(WasmAllocateArray)` (lines 281-303) with the answer of
`Allocate(instance_size)` taken from `allocator`; the code after line 298 runs
only when the allocator hands back an object. -/
def WasmAllocateArrayWith (allocator : Allocator) (p : Platform) (frame : Frame)
    (heap : ManagedHeap) (map_index length element_size : Smi) : Option (Nat × ManagedHeap) :=
  let instance_object := LoadInstanceFromFrame frame
  let maps_list := instance_object.managed_object_maps
  match LoadFixedArrayElement maps_list map_index with
  | none => none
  | some map =>
    let untagged_length := SmiUntag p length
    let instance_size := WasmArrayInstanceSize p element_size length
    match allocator heap instance_size with
    | none => none
    | some (result, heap1) =>
      let heap2 := StoreMap heap1 result map
      let heap3 := StoreObjectFieldNoWriteBarrier heap2 result p.WasmArray_kLengthOffset
        (TruncateIntPtrToInt32 untagged_length)
      some (result, heap3)

/-- `TF_BUILTIN(WasmAllocateStruct)` (lines 305-316) with the answer of
`Allocate(instance_size)` taken from `allocator`. -/
def WasmAllocateStructWith (allocator : Allocator) (p : Platform) (frame : Frame)
    (heap : ManagedHeap) (map_index : Smi) : Option (Nat × ManagedHeap) :=
  let instance_object := LoadInstanceFromFrame frame
  let maps_list := instance_object.managed_object_maps
  match LoadFixedArrayElement maps_list map_index with
  | none => none
  | some map =>
    let instance_size := TimesTaggedSize p (LoadMapInstanceSizeInWords p map)
    match allocator heap instance_size with
    | none => none
    | some (result, heap1) =>
      let heap2 := StoreMap heap1 result map
      some (result, heap2)

/-- A map of an array kind, for the samples. -/
def sampleMap : Map := ⟨2000, 0⟩

/-- A frame whose instance has `sampleMap` at index 0 of its map registry. -/
def sampleFrame : Frame :=
  ⟨⟨⟨7⟩, [], [], [sampleMap]⟩, .HeapObject 1 ⟨67, 4⟩⟩

theorem two_pow_pred_le (bits : Nat) : 2 ^ (bits - 1) ≤ 2 ^ bits :=
  Nat.pow_le_pow_right (by decide) (Nat.sub_le bits 1)

theorem toSigned_of_lt (bits x : Nat) (h : x < 2 ^ (bits - 1)) : toSigned bits x = (x : Int) := by
  have hx : x % 2 ^ bits = x := Nat.mod_eq_of_lt (lt_of_lt_of_le h (two_pow_pred_le bits))
  unfold toSigned
  rw [hx, if_pos h]

theorem toSigned_of_le_kMaxValue (p : Platform) (x : Nat) (h : (x : Int) ≤ Smi.kMaxValue p) :
    toSigned p.kSmiValueSize x = (x : Int) := by
  apply toSigned_of_lt
  unfold Smi.kMaxValue at h
  have h2 : (x : Int) < ((2 ^ (p.kSmiValueSize - 1) : Nat) : Int) := by
    push_cast
    omega
  exact_mod_cast h2

theorem ofSigned_natCast (bits n : Nat) : ofSigned bits (n : Int) = n % 2 ^ bits := by
  unfold ofSigned
  rw [← Int.natCast_mod, Int.toNat_natCast]

theorem ofSigned_of_lt (bits n : Nat) (h : n < 2 ^ bits) : ofSigned bits (n : Int) = n := by
  rw [ofSigned_natCast, Nat.mod_eq_of_lt h]

/-- The saturating conversion yields the Smi of `min value max`. -/
theorem SmiFromUint32WithSaturation_value (p : Platform) (value max : Nat)
    (hmax32 : max < 2 ^ 32) (hmax : (max : Int) ≤ Smi.kMaxValue p) :
    SmiFromUint32WithSaturation p value max = ⟨((min value max : Nat) : Int)⟩ := by
  have hc : Uint32Constant max = max := Nat.mod_eq_of_lt hmax32
  unfold SmiFromUint32WithSaturation SelectConstant Uint32LessThan SmiFromUint32
  simp only [hc]
  by_cases hlt : value < max
  · have hmin : min value max = value := Nat.min_eq_left (Nat.le_of_lt hlt)
    have hle : (value : Int) ≤ Smi.kMaxValue p := le_trans (by exact_mod_cast Nat.le_of_lt hlt) hmax
    simp only [hlt, decide_True, if_true, hmin]
    rw [toSigned_of_le_kMaxValue p value hle]
  · have hmin : min value max = max := Nat.min_eq_right (Nat.le_of_not_lt hlt)
    simp only [hlt, decide_False, hmin]
    rw [if_neg (by simp), toSigned_of_le_kMaxValue p max hmax]

/-- C1: for a 32-bit `value` and a cap `max <= Smi::kMaxValue`,
`SmiFromUint32WithSaturation(value, max)` is the Smi of `min(value, max)`: `value`
itself when `value <= max`, exactly `max` when `value > max`; it is not negative
and does not exceed `Smi::kMaxValue`. -/
theorem C1_saturation_is_min (p : Platform) (value max : Nat)
    (hmax32 : max < 2 ^ 32) (hmax : (max : Int) ≤ Smi.kMaxValue p) :
    (SmiFromUint32WithSaturation p value max).value = ((min value max : Nat) : Int) ∧
    (value ≤ max → (SmiFromUint32WithSaturation p value max).value = (value : Int)) ∧
    (max < value → (SmiFromUint32WithSaturation p value max).value = (max : Int)) ∧
    0 ≤ (SmiFromUint32WithSaturation p value max).value ∧
    (SmiFromUint32WithSaturation p value max).value ≤ Smi.kMaxValue p := by
  rw [SmiFromUint32WithSaturation_value p value max hmax32 hmax]
  refine ⟨rfl, ?_, ?_, ?_, ?_⟩
  · intro h
    simp only [Nat.min_eq_left h]
  · intro h
    simp only [Nat.min_eq_right (Nat.le_of_lt h)]
  · exact Int.natCast_nonneg _
  · have h : ((min value max : Nat) : Int) ≤ (max : Int) := by
      exact_mod_cast Nat.min_le_right value max
    exact le_trans h hmax

theorem ofSigned_toSigned (bits x : Nat) : ofSigned bits (toSigned bits x) = x % 2 ^ bits := by
  unfold toSigned
  split
  · rw [ofSigned_natCast, Nat.mod_mod]
  · unfold ofSigned
    have h : (((x % 2 ^ bits : Nat) : Int) - ((2 ^ bits : Nat) : Int)) % ((2 ^ bits : Nat) : Int)
        = ((x % 2 ^ bits : Nat) : Int) % ((2 ^ bits : Nat) : Int) := by
      rw [Int.sub_emod, Int.emod_self, sub_zero, Int.emod_emod]
    rw [h, ← Int.natCast_mod, Int.toNat_natCast, Nat.mod_mod]

theorem Unsigned_SmiToInt32_natCast (m : Nat) (hm : m < 2 ^ 32) :
    Unsigned (SmiToInt32 ⟨(m : Int)⟩) = m := by
  unfold Unsigned SmiToInt32
  rw [ofSigned_toSigned, ofSigned_natCast, Nat.mod_mod, Nat.mod_eq_of_lt hm]

theorem kMaxValue_lt_of_size_le (p : Platform) (h : p.kSmiValueSize ≤ 32) :
    Smi.kMaxValue p < 2 ^ 31 := by
  unfold Smi.kMaxValue
  have h1 : (2 : Int) ^ (p.kSmiValueSize - 1) ≤ 2 ^ 31 :=
    pow_le_pow_right₀ (by norm_num) (by omega)
  omega

theorem kCap_eq (p : Platform) (hsmi : p.kSmiValueSize ≤ 32)
    (hstatic : ((p.kV8MaxWasmTableSize + 1 : Nat) : Int) ≤ Smi.kMaxValue p) :
    kCap p = p.kV8MaxWasmTableSize + 1 := by
  have h := kMaxValue_lt_of_size_le p hsmi
  unfold kCap
  apply Nat.mod_eq_of_lt
  have h2 : ((p.kV8MaxWasmTableSize + 1 : Nat) : Int) < 2 ^ 31 := lt_of_le_of_lt hstatic h
  have h3 : p.kV8MaxWasmTableSize + 1 < 2 ^ 31 := by exact_mod_cast h2
  omega

theorem clamp_kCap (p : Platform) (hsmi : p.kSmiValueSize ≤ 32)
    (hstatic : ((p.kV8MaxWasmTableSize + 1 : Nat) : Int) ≤ Smi.kMaxValue p) (v : Nat) :
    SmiFromUint32WithSaturation p v (kCap p) =
      ⟨((min v (p.kV8MaxWasmTableSize + 1) : Nat) : Int)⟩ := by
  have hc := kCap_eq p hsmi hstatic
  have h := kMaxValue_lt_of_size_le p hsmi
  have h2 : ((p.kV8MaxWasmTableSize + 1 : Nat) : Int) < 2 ^ 31 := lt_of_le_of_lt hstatic h
  have h3 : p.kV8MaxWasmTableSize + 1 < 2 ^ 31 := by exact_mod_cast h2
  rw [hc]
  exact SmiFromUint32WithSaturation_value p v _ (by omega) hstatic

/-- C9: clamping the untagged result of `SmiFromUint32WithSaturation(value, max)`
again with the same `max` gives the result of clamping once. -/
theorem C9_saturation_idempotent (p : Platform) (value max : Nat)
    (hmax32 : max < 2 ^ 32) (hmax : (max : Int) ≤ Smi.kMaxValue p) :
    SmiFromUint32WithSaturation p
        (Unsigned (SmiToInt32 (SmiFromUint32WithSaturation p value max))) max =
      SmiFromUint32WithSaturation p value max := by
  rw [SmiFromUint32WithSaturation_value p value max hmax32 hmax]
  have hm : min value max < 2 ^ 32 := lt_of_le_of_lt (Nat.min_le_right value max) hmax32
  rw [Unsigned_SmiToInt32_natCast _ hm, SmiFromUint32WithSaturation_value p _ max hmax32 hmax]
  simp

/-- Witness of C9 on the 64-bit build: `value = 4000000000`, `max = 10000001`. -/
theorem C9_saturation_idempotent_witness :
    SmiFromUint32WithSaturation x64
        (Unsigned (SmiToInt32 (SmiFromUint32WithSaturation x64 4000000000 10000001))) 10000001 =
      SmiFromUint32WithSaturation x64 4000000000 10000001 :=
  C9_saturation_idempotent x64 4000000000 10000001 (by decide) (by decide)

/-- Witness of C1 on the 32-bit build: `value = 4294967295` is capped at
`max = 10000001`. -/
theorem C1_saturation_is_min_witness :
    (SmiFromUint32WithSaturation ia32 4294967295 10000001).value =
        ((min 4294967295 10000001 : Nat) : Int) ∧
    (4294967295 ≤ 10000001 →
      (SmiFromUint32WithSaturation ia32 4294967295 10000001).value = ((4294967295 : Nat) : Int)) ∧
    (10000001 < 4294967295 →
      (SmiFromUint32WithSaturation ia32 4294967295 10000001).value = ((10000001 : Nat) : Int)) ∧
    0 ≤ (SmiFromUint32WithSaturation ia32 4294967295 10000001).value ∧
    (SmiFromUint32WithSaturation ia32 4294967295 10000001).value ≤ Smi.kMaxValue ia32 :=
  C1_saturation_is_min ia32 4294967295 10000001 (by decide) (by decide)

/-! ## Table builtins -/

/-- C5: `WasmTableInit` and `WasmTableCopy` make no call before their tail call
and forward to the runtime, after the instance, the two indices unchanged and
then destination, source and size, each clamped with
`max = kV8MaxWasmTableSize + 1`: a raw value `v <= kV8MaxWasmTableSize` (the limit
included) is forwarded as `v`, a larger one as `kV8MaxWasmTableSize + 1`. -/
theorem C5_table_builtins_forward_clamped (p : Platform) (hsmi : p.kSmiValueSize ≤ 32)
    (hstatic : ((p.kV8MaxWasmTableSize + 1 : Nat) : Int) ≤ Smi.kMaxValue p)
    (frame : Frame) (dst_raw src_raw size_raw : Nat) (first_index second_index : Smi) :
    (∀ v : Nat, (SmiFromUint32WithSaturation p v (kCap p)).value =
      if v ≤ p.kV8MaxWasmTableSize then (v : Int) else (p.kV8MaxWasmTableSize : Int) + 1) ∧
    WasmTableInit p frame dst_raw src_raw size_raw first_index second_index =
      ⟨[], .TailCallRuntime ⟨.kWasmTableInit, frame.wasm_instance.native_context,
        [.Instance frame.wasm_instance, .Smi first_index, .Smi second_index,
          .Smi (SmiFromUint32WithSaturation p dst_raw (kCap p)),
          .Smi (SmiFromUint32WithSaturation p src_raw (kCap p)),
          .Smi (SmiFromUint32WithSaturation p size_raw (kCap p))]⟩⟩ ∧
    WasmTableCopy p frame dst_raw src_raw size_raw first_index second_index =
      ⟨[], .TailCallRuntime ⟨.kWasmTableCopy, frame.wasm_instance.native_context,
        [.Instance frame.wasm_instance, .Smi first_index, .Smi second_index,
          .Smi (SmiFromUint32WithSaturation p dst_raw (kCap p)),
          .Smi (SmiFromUint32WithSaturation p src_raw (kCap p)),
          .Smi (SmiFromUint32WithSaturation p size_raw (kCap p))]⟩⟩ := by
  refine ⟨?_, rfl, rfl⟩
  intro v
  rw [clamp_kCap p hsmi hstatic v]
  by_cases h : v ≤ p.kV8MaxWasmTableSize
  · rw [if_pos h]
    have : min v (p.kV8MaxWasmTableSize + 1) = v := Nat.min_eq_left (by omega)
    simp only [this]
  · rw [if_neg h]
    have : min v (p.kV8MaxWasmTableSize + 1) = p.kV8MaxWasmTableSize + 1 :=
      Nat.min_eq_right (by omega)
    simp only [this]
    push_cast
    rfl

/-- C10: for a table length `n <= kV8MaxWasmTableSize`, the destination, source
and size that `WasmTableInit` and `WasmTableCopy` forward satisfy
`dst + size <= n` exactly when the raw values do, and likewise for the source:
no raw request out of range becomes in range, and none in range is rejected. -/
theorem C10_clamp_preserves_bounds_check (p : Platform) (hsmi : p.kSmiValueSize ≤ 32)
    (hstatic : ((p.kV8MaxWasmTableSize + 1 : Nat) : Int) ≤ Smi.kMaxValue p)
    (n : Nat) (hn : n ≤ p.kV8MaxWasmTableSize)
    (frame : Frame) (dst_raw src_raw size_raw : Nat) (first_index second_index : Smi) :
    ∃ dst src size : Smi,
      (WasmTableInit p frame dst_raw src_raw size_raw first_index second_index).completion =
        .TailCallRuntime ⟨.kWasmTableInit, frame.wasm_instance.native_context,
          [.Instance frame.wasm_instance, .Smi first_index, .Smi second_index,
            .Smi dst, .Smi src, .Smi size]⟩ ∧
      (WasmTableCopy p frame dst_raw src_raw size_raw first_index second_index).completion =
        .TailCallRuntime ⟨.kWasmTableCopy, frame.wasm_instance.native_context,
          [.Instance frame.wasm_instance, .Smi first_index, .Smi second_index,
            .Smi dst, .Smi src, .Smi size]⟩ ∧
      dst.value = ((min dst_raw (p.kV8MaxWasmTableSize + 1) : Nat) : Int) ∧
      src.value = ((min src_raw (p.kV8MaxWasmTableSize + 1) : Nat) : Int) ∧
      size.value = ((min size_raw (p.kV8MaxWasmTableSize + 1) : Nat) : Int) ∧
      (dst.value + size.value ≤ (n : Int) ↔ dst_raw + size_raw ≤ n) ∧
      (src.value + size.value ≤ (n : Int) ↔ src_raw + size_raw ≤ n) := by
  refine ⟨SmiFromUint32WithSaturation p dst_raw (kCap p),
    SmiFromUint32WithSaturation p src_raw (kCap p),
    SmiFromUint32WithSaturation p size_raw (kCap p), rfl, rfl, ?_⟩
  rw [clamp_kCap p hsmi hstatic dst_raw, clamp_kCap p hsmi hstatic src_raw,
    clamp_kCap p hsmi hstatic size_raw]
  refine ⟨rfl, rfl, rfl, ?_, ?_⟩
  · show ((min dst_raw (p.kV8MaxWasmTableSize + 1) : Nat) : Int)
        + ((min size_raw (p.kV8MaxWasmTableSize + 1) : Nat) : Int) ≤ (n : Int) ↔ _
    omega
  · show ((min src_raw (p.kV8MaxWasmTableSize + 1) : Nat) : Int)
        + ((min size_raw (p.kV8MaxWasmTableSize + 1) : Nat) : Int) ≤ (n : Int) ↔ _
    omega

/-! ## Atomic wait and own-property lookup -/

/-- C7: each atomic-wait builtin ends in `Unreachable`, without a runtime call,
exactly when the word width of the target does not match its variant; on a
matching target the I32 variants call `Runtime::kWasmI32AtomicWait` and the I64
variants `Runtime::kWasmI64AtomicWait`, with the instance and then address,
expected value and timeout, in that order, and return the result of that call. -/
theorem C7_atomic_wait_variants (p : Platform) (CallRuntime : RuntimeCall → Smi) (frame : Frame)
    (address : Nat) (expected_value : Int)
    (expected_value_low expected_value_high expected_value_raw : Nat)
    (timeout_low timeout_high timeout_raw : Nat) :
    (WasmI32AtomicWait32 p CallRuntime frame address expected_value timeout_low timeout_high =
      if p.Is64 = false then
        ⟨[.CallRuntime ⟨.kWasmI32AtomicWait, frame.wasm_instance.native_context,
            [.Instance frame.wasm_instance, ChangeUint32ToTagged address,
              ChangeInt32ToTagged expected_value,
              BigIntFromInt32Pair timeout_low timeout_high]⟩],
          .Return (Unsigned (SmiToInt32 (CallRuntime
            ⟨.kWasmI32AtomicWait, frame.wasm_instance.native_context,
              [.Instance frame.wasm_instance, ChangeUint32ToTagged address,
                ChangeInt32ToTagged expected_value,
                BigIntFromInt32Pair timeout_low timeout_high]⟩)))⟩
      else ⟨[], .Unreachable⟩) ∧
    (WasmI32AtomicWait64 p CallRuntime frame address expected_value timeout_raw =
      if p.Is64 = true then
        ⟨[.CallRuntime ⟨.kWasmI32AtomicWait, frame.wasm_instance.native_context,
            [.Instance frame.wasm_instance, ChangeUint32ToTagged address,
              ChangeInt32ToTagged expected_value, BigIntFromInt64 timeout_raw]⟩],
          .Return (Unsigned (SmiToInt32 (CallRuntime
            ⟨.kWasmI32AtomicWait, frame.wasm_instance.native_context,
              [.Instance frame.wasm_instance, ChangeUint32ToTagged address,
                ChangeInt32ToTagged expected_value, BigIntFromInt64 timeout_raw]⟩)))⟩
      else ⟨[], .Unreachable⟩) ∧
    (WasmI64AtomicWait32 p CallRuntime frame address expected_value_low expected_value_high
        timeout_low timeout_high =
      if p.Is64 = false then
        ⟨[.CallRuntime ⟨.kWasmI64AtomicWait, frame.wasm_instance.native_context,
            [.Instance frame.wasm_instance, ChangeUint32ToTagged address,
              BigIntFromInt32Pair expected_value_low expected_value_high,
              BigIntFromInt32Pair timeout_low timeout_high]⟩],
          .Return (Unsigned (SmiToInt32 (CallRuntime
            ⟨.kWasmI64AtomicWait, frame.wasm_instance.native_context,
              [.Instance frame.wasm_instance, ChangeUint32ToTagged address,
                BigIntFromInt32Pair expected_value_low expected_value_high,
                BigIntFromInt32Pair timeout_low timeout_high]⟩)))⟩
      else ⟨[], .Unreachable⟩) ∧
    (WasmI64AtomicWait64 p CallRuntime frame address expected_value_raw timeout_raw =
      if p.Is64 = true then
        ⟨[.CallRuntime ⟨.kWasmI64AtomicWait, frame.wasm_instance.native_context,
            [.Instance frame.wasm_instance, ChangeUint32ToTagged address,
              BigIntFromInt64 expected_value_raw, BigIntFromInt64 timeout_raw]⟩],
          .Return (Unsigned (SmiToInt32 (CallRuntime
            ⟨.kWasmI64AtomicWait, frame.wasm_instance.native_context,
              [.Instance frame.wasm_instance, ChangeUint32ToTagged address,
                BigIntFromInt64 expected_value_raw, BigIntFromInt64 timeout_raw]⟩)))⟩
      else ⟨[], .Unreachable⟩) ∧
    (((WasmI32AtomicWait32 p CallRuntime frame address expected_value timeout_low
          timeout_high).completion = .Unreachable ↔ p.Is64 = true) ∧
      ((WasmI32AtomicWait32 p CallRuntime frame address expected_value timeout_low
          timeout_high).calls = [] ↔ p.Is64 = true)) ∧
    (((WasmI64AtomicWait32 p CallRuntime frame address expected_value_low expected_value_high
          timeout_low timeout_high).completion = .Unreachable ↔ p.Is64 = true) ∧
      ((WasmI64AtomicWait32 p CallRuntime frame address expected_value_low expected_value_high
          timeout_low timeout_high).calls = [] ↔ p.Is64 = true)) ∧
    (((WasmI32AtomicWait64 p CallRuntime frame address expected_value
          timeout_raw).completion = .Unreachable ↔ p.Is64 = false) ∧
      ((WasmI32AtomicWait64 p CallRuntime frame address expected_value
          timeout_raw).calls = [] ↔ p.Is64 = false)) ∧
    (((WasmI64AtomicWait64 p CallRuntime frame address expected_value_raw
          timeout_raw).completion = .Unreachable ↔ p.Is64 = false) ∧
      ((WasmI64AtomicWait64 p CallRuntime frame address expected_value_raw
          timeout_raw).calls = [] ↔ p.Is64 = false)) := by
  unfold WasmI32AtomicWait32 WasmI32AtomicWait64 WasmI64AtomicWait32 WasmI64AtomicWait64
    Platform.Is32 LoadContextFromInstance LoadInstanceFromFrame
  cases h : p.Is64 <;> simp

/-- C8: `WasmGetOwnProperty` returns undefined, without a lookup, when the
receiver is a Smi, is undefined, or has a map whose instance type is not a
JS-receiver type; otherwise it makes one lookup and returns the value found,
undefined when nothing is found, and ends in `Unreachable` on bailout. -/
theorem C8_get_own_property (p : Platform) (frame : Frame)
    (TryGetOwnProperty : LookupQuery → LookupResult)
    (object : Object) (unique_name : Name) (context : NativeContext) :
    ((TaggedIsSmi object = true ∨ IsUndefined frame object = true ∨
        (∃ map, LoadMap object = some map ∧
          IsJSReceiverInstanceType p (LoadMapInstanceType map) = false)) →
      WasmGetOwnProperty p frame TryGetOwnProperty object unique_name context =
        ⟨[], .Return (UndefinedConstant frame)⟩) ∧
    (∀ map : Map, TaggedIsSmi object = false → IsUndefined frame object = false →
      LoadMap object = some map →
      IsJSReceiverInstanceType p (LoadMapInstanceType map) = true →
      (∀ var_value : Object,
        TryGetOwnProperty ⟨context, object, object, map, LoadMapInstanceType map, unique_name⟩ =
          .if_found var_value →
        WasmGetOwnProperty p frame TryGetOwnProperty object unique_name context =
          ⟨[.TryGetOwnProperty
              ⟨context, object, object, map, LoadMapInstanceType map, unique_name⟩],
            .Return var_value⟩) ∧
      (TryGetOwnProperty ⟨context, object, object, map, LoadMapInstanceType map, unique_name⟩ =
          .if_not_found →
        WasmGetOwnProperty p frame TryGetOwnProperty object unique_name context =
          ⟨[.TryGetOwnProperty
              ⟨context, object, object, map, LoadMapInstanceType map, unique_name⟩],
            .Return (UndefinedConstant frame)⟩) ∧
      (TryGetOwnProperty ⟨context, object, object, map, LoadMapInstanceType map, unique_name⟩ =
          .if_bailout →
        WasmGetOwnProperty p frame TryGetOwnProperty object unique_name context =
          ⟨[.TryGetOwnProperty
              ⟨context, object, object, map, LoadMapInstanceType map, unique_name⟩],
            .Unreachable⟩)) := by
  constructor
  · intro h
    unfold WasmGetOwnProperty
    rcases h with h | h | ⟨map, hmap, hty⟩
    · simp [h]
    · simp [h]
    · simp only [hmap, hty]
      simp
  · intro map hsmi hundef hmap hty
    unfold WasmGetOwnProperty
    simp only [hsmi, hundef, hmap, hty]
    refine ⟨?_, ?_, ?_⟩
    · intro v hv
      simp [hv]
    · intro hv
      simp [hv]
    · intro hv
      simp [hv]

/-! ## The retrying wrapper -/

theorem retryEvents_count_CollectGarbage (k : Nat) :
    (retryEvents k).count .CollectGarbage = k := by
  induction k with
  | zero => rfl
  | succ k ih =>
    show (HeapEvent.Invoke :: HeapEvent.CollectGarbage :: retryEvents k).count
      HeapEvent.CollectGarbage = k + 1
    rw [List.count_cons_of_ne (by decide), List.count_cons_self, ih]

theorem retryEvents_count_Invoke (k : Nat) : (retryEvents k).count .Invoke = k + 1 := by
  induction k with
  | zero => rfl
  | succ k ih =>
    show (HeapEvent.Invoke :: HeapEvent.CollectGarbage :: retryEvents k).count
      HeapEvent.Invoke = k + 1 + 1
    rw [List.count_cons_self, List.count_cons_of_ne (by decide), ih]

theorem CALL_HEAP_FUNCTION_of_FailsThenSucceeds {σ α : Type} (CollectGarbage : σ → σ)
    (FUNCTION_CALL : σ → AllocationResult α × σ) (k : Nat) :
    ∀ (retries : Nat) (s : σ) (object : α) (final : σ), k ≤ retries →
      FailsThenSucceeds CollectGarbage FUNCTION_CALL k s object final →
      CALL_HEAP_FUNCTION CollectGarbage FUNCTION_CALL retries s =
        (retryEvents k, .Returned object, final) := by
  induction k with
  | zero =>
    intro retries s object final _ h
    have hf : FUNCTION_CALL s = (.Success object, final) := h
    cases retries with
    | zero => simp only [CALL_HEAP_FUNCTION, hf, retryEvents]
    | succ n => simp only [CALL_HEAP_FUNCTION, hf, retryEvents]
  | succ k ih =>
    intro retries s object final hk h
    obtain ⟨requested, s1, hf, hrest⟩ := h
    cases retries with
    | zero => omega
    | succ n =>
      have hrec := ih n (CollectGarbage s1) object final (by omega) hrest
      simp only [CALL_HEAP_FUNCTION, hf, hrec, retryEvents]

theorem AllocateAfterFailures_fails_twice :
    FailsThenSucceeds id AllocateAfterFailures 2 ⟨0⟩ (.Smi (Smi.FromInt 42)) ⟨3⟩ :=
  ⟨0, ⟨1⟩, rfl, 0, ⟨2⟩, rfl, rfl⟩

/-- C6: when the allocation function reports `RetryAfterGC` exactly `k` times
before succeeding and `k` is within the retry bound, the wrapper invokes it
`k + 1` times with one collection after each failure, `k` collections in all,
and returns the success value; `AllocateAfterFailures` fails on its first two
attempts and `Test` returns the Smi 42 after two collections. -/
theorem C6_retry_wrapper :
    (∀ (σ α : Type) (CollectGarbage : σ → σ) (FUNCTION_CALL : σ → AllocationResult α × σ)
        (retries k : Nat) (s : σ) (object : α) (final : σ), k ≤ retries →
        FailsThenSucceeds CollectGarbage FUNCTION_CALL k s object final →
        CALL_HEAP_FUNCTION CollectGarbage FUNCTION_CALL retries s =
            (retryEvents k, .Returned object, final) ∧
          (retryEvents k).count .CollectGarbage = k ∧
          (retryEvents k).count .Invoke = k + 1) ∧
    (∀ retries : Nat, 2 ≤ retries →
        (AllocateAfterFailures ⟨0⟩).1 = .RetryAfterGC 0 ∧
        (AllocateAfterFailures ⟨1⟩).1 = .RetryAfterGC 0 ∧
        (AllocateAfterFailures ⟨2⟩).1 = .Success (.Smi (Smi.FromInt 42)) ∧
        Test retries = (retryEvents 2, .Returned (.Smi (Smi.FromInt 42)), ⟨3⟩)) := by
  constructor
  · intro σ α CollectGarbage FUNCTION_CALL retries k s object final hk h
    exact ⟨CALL_HEAP_FUNCTION_of_FailsThenSucceeds CollectGarbage FUNCTION_CALL k retries s
      object final hk h, retryEvents_count_CollectGarbage k, retryEvents_count_Invoke k⟩
  · intro retries hr
    exact ⟨rfl, rfl, rfl, CALL_HEAP_FUNCTION_of_FailsThenSucceeds id AllocateAfterFailures 2
      retries ⟨0⟩ _ ⟨3⟩ hr AllocateAfterFailures_fails_twice⟩

/-- Witness of C6: with a retry bound of 2 the test returns the Smi 42 after the
events invoke, collect, invoke, collect, invoke. -/
theorem C6_retry_wrapper_witness :
    Test 2 = ([.Invoke, .CollectGarbage, .Invoke, .CollectGarbage, .Invoke],
      .Returned (.Smi (Smi.FromInt 42)), ⟨3⟩) ∧
    ([HeapEvent.Invoke, .CollectGarbage, .Invoke, .CollectGarbage, .Invoke].count
      .CollectGarbage = 2) :=
  ⟨(C6_retry_wrapper.2 2 (by decide)).2.2.2,
    (C6_retry_wrapper.1 TestState Object id AllocateAfterFailures 2 2 ⟨0⟩
      (.Smi (Smi.FromInt 42)) ⟨3⟩ (by decide) ⟨0, ⟨1⟩, rfl, 0, ⟨2⟩, rfl, rfl⟩).2.1⟩

/-! ## Word arithmetic of the size computation -/

theorem cast_ofSigned (bits : Nat) (v : Int) :
    ((ofSigned bits v : Nat) : Int) = v % ((2 ^ bits : Nat) : Int) := by
  unfold ofSigned
  apply Int.toNat_of_nonneg
  apply Int.emod_nonneg
  exact_mod_cast (Nat.two_pow_pos bits).ne'

theorem ofSigned_lt (bits : Nat) (v : Int) : ofSigned bits v < 2 ^ bits := by
  have h : ((ofSigned bits v : Nat) : Int) < ((2 ^ bits : Nat) : Int) := by
    rw [cast_ofSigned]
    apply Int.emod_lt_of_pos
    exact_mod_cast Nat.two_pow_pos bits
  exact_mod_cast h

theorem eq_ofSigned_of_cast (bits a : Nat) (v : Int)
    (h : (a : Int) = v % ((2 ^ bits : Nat) : Int)) : a = ofSigned bits v := by
  unfold ofSigned
  rw [← h, Int.toNat_natCast]

theorem mul_ofSigned (bits : Nat) (a b : Int) :
    (ofSigned bits a * ofSigned bits b) % 2 ^ bits = ofSigned bits (a * b) := by
  apply eq_ofSigned_of_cast
  rw [Int.natCast_mod, Nat.cast_mul, cast_ofSigned, cast_ofSigned, ← Int.mul_emod]

theorem add_ofSigned (bits : Nat) (a b : Int) :
    (ofSigned bits a + ofSigned bits b) % 2 ^ bits = ofSigned bits (a + b) := by
  apply eq_ofSigned_of_cast
  rw [Int.natCast_mod, Nat.cast_add, cast_ofSigned, cast_ofSigned, ← Int.add_emod]

theorem testBit_ofSigned_neg_two_pow (w k i : Nat) :
    (ofSigned w (-((2 ^ k : Nat) : Int))).testBit i = (decide (k ≤ i) && decide (i < w)) := by
  by_cases hkw : k ≤ w
  · have hm : ofSigned w (-((2 ^ k : Nat) : Int)) = 2 ^ k * (2 ^ (w - k) - 1) := by
      symm
      apply eq_ofSigned_of_cast
      have hle : 2 ^ k ≤ 2 ^ w := Nat.pow_le_pow_right (by decide) hkw
      have hpos : 0 < 2 ^ k := Nat.two_pow_pos k
      have he : 2 ^ k * (2 ^ (w - k) - 1) = 2 ^ w - 2 ^ k := by
        rw [Nat.mul_sub, mul_one, ← pow_add, Nat.add_sub_cancel' hkw]
      rw [he, Nat.cast_sub hle]
      rw [show -((2 ^ k : Nat) : Int) = ((2 ^ w : Nat) : Int) - ((2 ^ k : Nat) : Int)
        + (-1) * ((2 ^ w : Nat) : Int) by ring, Int.add_mul_emod_self]
      symm
      apply Int.emod_eq_of_lt
      · have : ((2 ^ k : Nat) : Int) ≤ ((2 ^ w : Nat) : Int) := by exact_mod_cast hle
        omega
      · have : (0 : Int) < ((2 ^ k : Nat) : Int) := by exact_mod_cast hpos
        omega
    rw [hm, Nat.testBit_mul_pow_two, Nat.testBit_two_pow_sub_one]
    by_cases hki : k ≤ i
    · simp [hki]
      omega
    · simp [hki]
  · have hm : ofSigned w (-((2 ^ k : Nat) : Int)) = 0 := by
      symm
      apply eq_ofSigned_of_cast
      have hd : ((2 ^ w : Nat) : Int) ∣ -((2 ^ k : Nat) : Int) := by
        rw [dvd_neg]
        exact_mod_cast Nat.pow_dvd_pow 2 (by omega : w ≤ k)
      rw [Int.emod_eq_zero_of_dvd hd]
      rfl
    rw [hm, Nat.zero_testBit]
    by_cases hki : k ≤ i
    · simp [hki]
      omega
    · simp [hki]

theorem and_ofSigned_neg_two_pow (w k x : Nat) (hx : x < 2 ^ w) :
    x &&& ofSigned w (-((2 ^ k : Nat) : Int)) = 2 ^ k * (x / 2 ^ k) := by
  apply Nat.eq_of_testBit_eq
  intro i
  rw [Nat.testBit_and, testBit_ofSigned_neg_two_pow, Nat.testBit_mul_pow_two,
    ← Nat.shiftRight_eq_div_pow, Nat.testBit_shiftRight]
  by_cases hki : k ≤ i
  · have hik : k + (i - k) = i := by omega
    by_cases hiw : i < w
    · simp [hki, hiw, hik]
    · have hxi : x.testBit i = false :=
        Nat.testBit_lt_two_pow (lt_of_lt_of_le hx (Nat.pow_le_pow_right (by decide) (by omega)))
      simp [hki, hiw, hik, hxi]
  · simp [hki]

theorem toSigned_ofSigned_of_range (w : Nat) (hw : 1 ≤ w) (v : Int)
    (hlo : -((2 ^ (w - 1) : Nat) : Int) ≤ v) (hhi : v < ((2 ^ (w - 1) : Nat) : Int)) :
    toSigned w (ofSigned w v) = v := by
  have hN : 2 ^ w = 2 * 2 ^ (w - 1) := by
    rw [← pow_succ', Nat.sub_add_cancel hw]
  have hmod : ofSigned w v % 2 ^ w = ofSigned w v := Nat.mod_eq_of_lt (ofSigned_lt w v)
  have hNi : ((2 ^ w : Nat) : Int) = 2 * ((2 ^ (w - 1) : Nat) : Int) := by
    rw [hN]
    push_cast
    ring
  have hc := cast_ofSigned w v
  unfold toSigned
  rw [hmod]
  by_cases hv : 0 ≤ v
  · have h1 : v % ((2 ^ w : Nat) : Int) = v := Int.emod_eq_of_lt hv (by omega)
    rw [h1] at hc
    have hlt : ofSigned w v < 2 ^ (w - 1) := by
      have : ((ofSigned w v : Nat) : Int) < ((2 ^ (w - 1) : Nat) : Int) := by omega
      exact_mod_cast this
    rw [if_pos hlt, hc]
  · have h1 : v % ((2 ^ w : Nat) : Int) = v + ((2 ^ w : Nat) : Int) := by
      rw [← Int.add_mul_emod_self_left v ((2 ^ w : Nat) : Int) 1, mul_one]
      exact Int.emod_eq_of_lt (by omega) (by omega)
    rw [h1] at hc
    have hge : ¬ ofSigned w v < 2 ^ (w - 1) := by
      intro hlt
      have : ((ofSigned w v : Nat) : Int) < ((2 ^ (w - 1) : Nat) : Int) := by exact_mod_cast hlt
      omega
    rw [if_neg hge, hc]
    ring

/-- The wrapped size computation, in closed form. -/
theorem size_word_eq (w k H : Nat) (a b : Int) :
    (ofSigned w (H : Int) +
        (((ofSigned w a * ofSigned w b) % 2 ^ w + ofSigned w ((2 ^ k - 1 : Nat) : Int)) % 2 ^ w
          &&& ofSigned w (-((2 ^ k - 1 : Nat) : Int) - 1))) % 2 ^ w =
      (H % 2 ^ w + 2 ^ k * (ofSigned w (a * b + ((2 ^ k - 1 : Nat) : Int)) / 2 ^ k)) % 2 ^ w := by
  have hpos : 1 ≤ 2 ^ k := Nat.two_pow_pos k
  have hneg : -((2 ^ k - 1 : Nat) : Int) - 1 = -((2 ^ k : Nat) : Int) := by
    rw [Nat.cast_sub hpos]
    push_cast
    ring
  rw [mul_ofSigned, add_ofSigned, hneg, and_ofSigned_neg_two_pow w k _ (ofSigned_lt w _)]
  rw [ofSigned_natCast]

theorem size_word_eq_roundUp (w k H : Nat) (hkw : k ≤ w) (a b : Int) :
    (ofSigned w (H : Int) +
        (((ofSigned w a * ofSigned w b) % 2 ^ w + ofSigned w ((2 ^ k - 1 : Nat) : Int)) % 2 ^ w
          &&& ofSigned w (-((2 ^ k - 1 : Nat) : Int) - 1))) % 2 ^ w =
      ofSigned w ((H : Int) + RoundUp (a * b) (2 ^ k)) := by
  rw [size_word_eq]
  apply eq_ofSigned_of_cast
  have hpos : 1 ≤ 2 ^ k := Nat.two_pow_pos k
  have hdvd : ((2 ^ k : Nat) : Int) ∣ ((2 ^ w : Nat) : Int) := by
    exact_mod_cast Nat.pow_dvd_pow 2 hkw
  have hmask : ((2 ^ k - 1 : Nat) : Int) = ((2 ^ k : Nat) : Int) - 1 := by
    rw [Nat.cast_sub hpos]
    push_cast
    ring
  set P : Int := a * b + ((2 ^ k - 1 : Nat) : Int) with hP
  have hR : RoundUp (a * b) (2 ^ k) = P / ((2 ^ k : Nat) : Int) * ((2 ^ k : Nat) : Int) := by
    unfold RoundUp
    rw [hP, hmask]
  have hq : ((ofSigned w P / 2 ^ k : Nat) : Int) * ((2 ^ k : Nat) : Int)
      = (P % ((2 ^ w : Nat) : Int)) / ((2 ^ k : Nat) : Int) * ((2 ^ k : Nat) : Int) := by
    rw [Int.natCast_div, cast_ofSigned]
  rw [Int.natCast_mod, hR]
  push_cast at hq ⊢
  rw [mul_comm ((2:Int) ^ k), hq]
  have h1 : ∀ x : Int, x / (2:Int) ^ k * 2 ^ k = x - x % 2 ^ k := by
    intro x
    have := Int.emod_add_ediv x ((2:Int) ^ k)
    linarith
  rw [h1, h1]
  have h2 : P % 2 ^ w % 2 ^ k = P % (2:Int) ^ k := by
    apply Int.emod_emod_of_dvd
    exact_mod_cast hdvd
  rw [h2, Int.add_emod, Int.emod_emod, Int.sub_emod, Int.emod_emod, ← Int.sub_emod, ← Int.add_emod]


theorem le_RoundUp (x : Int) (m : Nat) (hm : 1 ≤ m) : x ≤ RoundUp x m := by
  unfold RoundUp
  have hm0 : (0 : Int) < (m : Int) := by exact_mod_cast hm
  have h1 := Int.emod_add_ediv (x + ((m : Int) - 1)) (m : Int)
  have h2 := Int.emod_lt_of_pos (x + ((m : Int) - 1)) hm0
  have h3 : (x + ((m : Int) - 1)) / (m : Int) * (m : Int) =
      (m : Int) * ((x + ((m : Int) - 1)) / (m : Int)) := mul_comm _ _
  omega

theorem dvd_RoundUp (x : Int) (m : Nat) : (m : Int) ∣ RoundUp x m :=
  Dvd.intro_left _ rfl

theorem RoundUp_le_of_dvd (x : Int) (m : Nat) (hm : 1 ≤ m) (y : Int) (hd : (m : Int) ∣ y)
    (hxy : x ≤ y) : RoundUp x m ≤ y := by
  obtain ⟨c, rfl⟩ := hd
  unfold RoundUp
  have hm0 : (0 : Int) < (m : Int) := by exact_mod_cast hm
  have hq : (x + ((m : Int) - 1)) / (m : Int) ≤ c := by
    have h1 : (x + ((m : Int) - 1)) / (m : Int) ≤ ((m : Int) * c + ((m : Int) - 1)) / (m : Int) :=
      Int.ediv_le_ediv hm0 (by omega)
    have h2 : ((m : Int) * c + ((m : Int) - 1)) / (m : Int) = c := by
      rw [Int.add_comm, Int.add_mul_ediv_left _ _ hm0.ne', Int.ediv_eq_zero_of_lt (by omega) (by omega),
        zero_add]
    omega
  calc (x + ((m : Int) - 1)) / (m : Int) * (m : Int)
      ≤ c * (m : Int) := Int.mul_le_mul_of_nonneg_right hq hm0.le
    _ = (m : Int) * c := mul_comm _ _

/-- Under the no-overflow hypotheses the wrapped computation, read as a signed
word, is the header plus the rounded-up product. -/
theorem size_word_signed (w k H : Nat) (hw : 1 ≤ w) (a b : Int)
    (hlo : -((2 ^ (w - 1) : Nat) : Int) ≤ a * b)
    (hhi : (H : Int) + RoundUp (a * b) (2 ^ k) < ((2 ^ (w - 1) : Nat) : Int)) :
    toSigned w ((ofSigned w (H : Int) +
        (((ofSigned w a * ofSigned w b) % 2 ^ w + ofSigned w ((2 ^ k - 1 : Nat) : Int)) % 2 ^ w
          &&& ofSigned w (-((2 ^ k - 1 : Nat) : Int) - 1))) % 2 ^ w) =
      (H : Int) + RoundUp (a * b) (2 ^ k) := by
  have hpos : 1 ≤ 2 ^ k := Nat.two_pow_pos k
  have hle := le_RoundUp (a * b) (2 ^ k) hpos
  have hH : (0 : Int) ≤ (H : Int) := Int.natCast_nonneg H
  by_cases hkw : k ≤ w
  · rw [size_word_eq_roundUp w k H hkw]
    exact toSigned_ofSigned_of_range w hw _ (by omega) hhi
  · have hwk : 2 ^ w < 2 ^ k := Nat.pow_lt_pow_right (by decide) (by omega)
    have hx : ofSigned w (a * b + ((2 ^ k - 1 : Nat) : Int)) / 2 ^ k = 0 :=
      Nat.div_eq_of_lt (lt_trans (ofSigned_lt w _) hwk)
    have hwk1 : 2 ^ (w - 1) < 2 ^ k := Nat.pow_lt_pow_right (by decide) (by omega)
    have hwk1i : ((2 ^ (w - 1) : Nat) : Int) < ((2 ^ k : Nat) : Int) := by exact_mod_cast hwk1
    have hM0 : (0 : Int) < ((2 ^ k : Nat) : Int) := by exact_mod_cast hpos
    have hR : RoundUp (a * b) (2 ^ k) = 0 := by
      have hd := dvd_RoundUp (a * b) (2 ^ k)
      obtain ⟨c, hc⟩ := hd
      have hc0 : c = 0 := by
        by_contra hne
        rcases lt_or_gt_of_ne hne with hneg | hpos2
        · have : ((2 ^ k : Nat) : Int) * c ≤ ((2 ^ k : Nat) : Int) * (-1) :=
            Int.mul_le_mul_of_nonneg_left (by omega) hM0.le
          omega
        · have : ((2 ^ k : Nat) : Int) * 1 ≤ ((2 ^ k : Nat) : Int) * c :=
            Int.mul_le_mul_of_nonneg_left (by omega) hM0.le
          omega
      rw [hc, hc0, mul_zero]
    rw [size_word_eq, hx, mul_zero, add_zero, Nat.mod_mod, hR, add_zero, ← ofSigned_natCast]
    exact toSigned_ofSigned_of_range w hw _ (by omega) (by omega)

/-! ## Array and struct allocation -/

theorem one_le_kBitsPerSystemPointer (p : Platform) : 1 ≤ p.kBitsPerSystemPointer := by
  unfold Platform.kBitsPerSystemPointer
  split <;> decide

theorem le_kBitsPerSystemPointer (p : Platform) : 32 ≤ p.kBitsPerSystemPointer := by
  unfold Platform.kBitsPerSystemPointer
  split <;> decide

theorem WasmArrayInstanceSize_unfold (p : Platform) (element_size length : Smi) :
    WasmArrayInstanceSize p element_size length =
      (ofSigned p.kBitsPerSystemPointer (p.WasmArray_kHeaderSize : Int) +
        (((ofSigned p.kBitsPerSystemPointer element_size.value *
            ofSigned p.kBitsPerSystemPointer length.value) % 2 ^ p.kBitsPerSystemPointer +
          ofSigned p.kBitsPerSystemPointer ((2 ^ p.kObjectAlignmentBits - 1 : Nat) : Int)) %
            2 ^ p.kBitsPerSystemPointer
          &&& ofSigned p.kBitsPerSystemPointer
            (-((2 ^ p.kObjectAlignmentBits - 1 : Nat) : Int) - 1))) %
        2 ^ p.kBitsPerSystemPointer := rfl

theorem modifyNth_append_length {α : Type} (f : α → α) (l : List α) (x : α) :
    modifyNth f (l ++ [x]) l.length = l ++ [f x] := by
  induction l with
  | nil => rfl
  | cons y ys ih =>
    show y :: modifyNth f (ys ++ [x]) ys.length = y :: (ys ++ [f x])
    rw [ih]

theorem WasmAllocateArray_eq (p : Platform) (frame : Frame) (heap : ManagedHeap)
    (map_index length element_size : Smi) (map : Map)
    (hmap : LoadFixedArrayElement frame.wasm_instance.managed_object_maps map_index = some map) :
    WasmAllocateArray p frame heap map_index length element_size =
      some (heap.objects.length, ⟨heap.objects ++
        [⟨WasmArrayInstanceSize p element_size length, some map,
          [(p.WasmArray_kLengthOffset, TruncateIntPtrToInt32 (SmiUntag p length))]⟩]⟩) := by
  unfold WasmAllocateArray
  simp only [LoadInstanceFromFrame, hmap, Allocate, StoreMap, StoreObjectFieldNoWriteBarrier,
    modifyNth_append_length]

theorem WasmAllocateStruct_eq (p : Platform) (frame : Frame) (heap : ManagedHeap)
    (map_index : Smi) (map : Map)
    (hmap : LoadFixedArrayElement frame.wasm_instance.managed_object_maps map_index = some map) :
    WasmAllocateStruct p frame heap map_index =
      some (heap.objects.length, ⟨heap.objects ++
        [⟨TimesTaggedSize p (LoadMapInstanceSizeInWords p map), some map, []⟩]⟩) := by
  unfold WasmAllocateStruct
  simp only [LoadInstanceFromFrame, hmap, Allocate, StoreMap, modifyNth_append_length]

/-- C3: when the product `element_size * length` and the sum
`WasmArray::kHeaderSize + RoundUp(product, kObjectAlignment)` fit the signed
pointer-width integer (the bound on the sum bounds the product from above), the
instance size that `WasmAllocateArray` computes is that
sum; it exceeds the header by a multiple of the alignment, is at least
`kHeaderSize + element_size * length`, and is a multiple of the alignment for a
header size that is one. -/
theorem C3_array_size_aligned (p : Platform) (element_size length : Smi)
    (hproduct_lo : -((2 ^ (p.kBitsPerSystemPointer - 1) : Nat) : Int) ≤
      element_size.value * length.value)
    (hsum : (p.WasmArray_kHeaderSize : Int) +
        RoundUp (element_size.value * length.value) p.kObjectAlignment <
      ((2 ^ (p.kBitsPerSystemPointer - 1) : Nat) : Int))
    (hheader : p.kObjectAlignment ∣ p.WasmArray_kHeaderSize) :
    toSigned p.kBitsPerSystemPointer (WasmArrayInstanceSize p element_size length) =
        (p.WasmArray_kHeaderSize : Int) +
          RoundUp (element_size.value * length.value) p.kObjectAlignment ∧
    (p.kObjectAlignment : Int) ∣
      toSigned p.kBitsPerSystemPointer (WasmArrayInstanceSize p element_size length) -
        (p.WasmArray_kHeaderSize : Int) ∧
    (p.kObjectAlignment : Int) ∣
      toSigned p.kBitsPerSystemPointer (WasmArrayInstanceSize p element_size length) ∧
    (p.WasmArray_kHeaderSize : Int) + element_size.value * length.value ≤
      toSigned p.kBitsPerSystemPointer (WasmArrayInstanceSize p element_size length) := by
  have hsize : toSigned p.kBitsPerSystemPointer (WasmArrayInstanceSize p element_size length) =
      (p.WasmArray_kHeaderSize : Int) +
        RoundUp (element_size.value * length.value) p.kObjectAlignment := by
    rw [WasmArrayInstanceSize_unfold]
    exact size_word_signed p.kBitsPerSystemPointer p.kObjectAlignmentBits
      p.WasmArray_kHeaderSize (one_le_kBitsPerSystemPointer p) element_size.value length.value
      hproduct_lo hsum
  have hdvd := dvd_RoundUp (element_size.value * length.value) p.kObjectAlignment
  have hle := le_RoundUp (element_size.value * length.value) p.kObjectAlignment
    (Nat.two_pow_pos p.kObjectAlignmentBits)
  have hheaderInt : (p.kObjectAlignment : Int) ∣ (p.WasmArray_kHeaderSize : Int) := by
    exact_mod_cast hheader
  rw [hsize]
  refine ⟨rfl, ?_, dvd_add hheaderInt hdvd, by omega⟩
  rw [add_sub_cancel_left]
  exact hdvd

theorem cast_of_toSigned_nonneg (w x : Nat) (hx : x < 2 ^ w) (h : 0 ≤ toSigned w x) :
    (x : Int) = toSigned w x := by
  unfold toSigned at h ⊢
  rw [Nat.mod_eq_of_lt hx] at h ⊢
  split
  · rfl
  · rename_i hge
    rw [if_neg hge] at h
    have : (x : Int) < ((2 ^ w : Nat) : Int) := by exact_mod_cast hx
    omega

theorem WasmArrayInstanceSize_lt (p : Platform) (element_size length : Smi) :
    WasmArrayInstanceSize p element_size length < 2 ^ p.kBitsPerSystemPointer := by
  rw [WasmArrayInstanceSize_unfold]
  exact Nat.mod_lt _ (Nat.two_pow_pos _)

theorem length_field_eq (p : Platform) (hsmi : p.kSmiValueSize ≤ 32) (length : Smi)
    (hlength : 0 ≤ length.value) (hlength_max : length.value ≤ Smi.kMaxValue p) :
    TruncateIntPtrToInt32 (SmiUntag p length) = length.value.toNat := by
  have hmax := kMaxValue_lt_of_size_le p hsmi
  obtain ⟨n, hn⟩ := Int.eq_ofNat_of_zero_le hlength
  have hlt : n < 2 ^ 31 := by
    have : (n : Int) < 2 ^ 31 := by omega
    exact_mod_cast this
  have hw : 2 ^ 32 ≤ 2 ^ p.kBitsPerSystemPointer :=
    Nat.pow_le_pow_right (by decide) (le_kBitsPerSystemPointer p)
  have h1 : n % 2 ^ p.kBitsPerSystemPointer = n := Nat.mod_eq_of_lt (by omega)
  have h2 : n % 2 ^ 32 = n := Nat.mod_eq_of_lt (by omega)
  unfold TruncateIntPtrToInt32 SmiUntag
  rw [hn, ofSigned_natCast, Int.toNat_natCast, h1, h2]

/-- C4: for a map index inside the registry and non-negative Smis `length` and
`element_size` whose size fits the pointer-width integer, `WasmAllocateArray`
allocates one object of `kHeaderSize + RoundUp(element_size * length,
kObjectAlignment)` bytes, `RoundUp` being the least multiple of the alignment
not below its argument, stores the map found at that index and stores `length`
in the length field. -/
theorem C4_allocate_array (p : Platform) (frame : Frame) (heap : ManagedHeap)
    (map_index length element_size : Smi) (map : Map)
    (hsmi : p.kSmiValueSize ≤ 32)
    (hindex : 0 ≤ map_index.value)
    (hmap : frame.wasm_instance.managed_object_maps[map_index.value.toNat]? = some map)
    (hlength : 0 ≤ length.value) (hlength_max : length.value ≤ Smi.kMaxValue p)
    (helement : 0 ≤ element_size.value)
    (hsum : (p.WasmArray_kHeaderSize : Int) +
        RoundUp (element_size.value * length.value) p.kObjectAlignment <
      ((2 ^ (p.kBitsPerSystemPointer - 1) : Nat) : Int)) :
    ∃ size : Nat,
      WasmAllocateArray p frame heap map_index length element_size =
        some (heap.objects.length, ⟨heap.objects ++
          [⟨size, some map, [(p.WasmArray_kLengthOffset, length.value.toNat)]⟩]⟩) ∧
      (size : Int) = (p.WasmArray_kHeaderSize : Int) +
        RoundUp (element_size.value * length.value) p.kObjectAlignment ∧
      (p.kObjectAlignment : Int) ∣
        RoundUp (element_size.value * length.value) p.kObjectAlignment ∧
      element_size.value * length.value ≤
        RoundUp (element_size.value * length.value) p.kObjectAlignment ∧
      (∀ m : Int, (p.kObjectAlignment : Int) ∣ m → element_size.value * length.value ≤ m →
        RoundUp (element_size.value * length.value) p.kObjectAlignment ≤ m) := by
  have hpos : 1 ≤ p.kObjectAlignment := Nat.two_pow_pos p.kObjectAlignmentBits
  have hprod : 0 ≤ element_size.value * length.value := mul_nonneg helement hlength
  have hle := le_RoundUp (element_size.value * length.value) p.kObjectAlignment hpos
  have hload : LoadFixedArrayElement frame.wasm_instance.managed_object_maps map_index =
      some map := by
    unfold LoadFixedArrayElement
    rw [if_pos hindex, hmap]
  have hsize : toSigned p.kBitsPerSystemPointer (WasmArrayInstanceSize p element_size length) =
      (p.WasmArray_kHeaderSize : Int) +
        RoundUp (element_size.value * length.value) p.kObjectAlignment := by
    rw [WasmArrayInstanceSize_unfold]
    exact size_word_signed p.kBitsPerSystemPointer p.kObjectAlignmentBits
      p.WasmArray_kHeaderSize (one_le_kBitsPerSystemPointer p) element_size.value length.value
      (by omega) hsum
  refine ⟨WasmArrayInstanceSize p element_size length, ?_, ?_,
    dvd_RoundUp _ _, hle, fun m hd hm => RoundUp_le_of_dvd _ _ hpos m hd hm⟩
  · rw [WasmAllocateArray_eq p frame heap map_index length element_size map hload,
      length_field_eq p hsmi length hlength hlength_max]
  · rw [cast_of_toSigned_nonneg _ _ (WasmArrayInstanceSize_lt p element_size length)
      (by rw [hsize]; omega), hsize]

/-- Witness of C4, the scenario `length = 100`, `element_size = 4` on the 64-bit
build: the object has 16 + 400 bytes and its length field holds 100. -/
theorem C4_allocate_array_witness :
    WasmAllocateArray x64 sampleFrame ⟨[]⟩ ⟨0⟩ ⟨100⟩ ⟨4⟩ =
      some (0, ⟨[⟨416, some sampleMap, [(8, 100)]⟩]⟩) := by
  obtain ⟨size, hrun, hsize, -⟩ := C4_allocate_array x64 sampleFrame ⟨[]⟩ ⟨0⟩ ⟨100⟩ ⟨4⟩
    sampleMap (by decide) (by decide) rfl (by decide) (by decide) (by decide) (by decide)
  have h416 : (x64.WasmArray_kHeaderSize : Int) +
      RoundUp ((⟨4⟩ : Smi).value * (⟨100⟩ : Smi).value) x64.kObjectAlignment = 416 := by decide
  rw [h416] at hsize
  have hs : size = 416 := by exact_mod_cast hsize
  rw [hs] at hrun
  exact hrun

/-- Witness of C3 on the 32-bit build: 3 elements of 2 bytes take 8 + 8 bytes. -/
theorem C3_array_size_aligned_witness :
    toSigned 32 (WasmArrayInstanceSize ia32 ⟨2⟩ ⟨3⟩) = 16 ∧
    ((4 : Nat) : Int) ∣ toSigned 32 (WasmArrayInstanceSize ia32 ⟨2⟩ ⟨3⟩) ∧
    (8 : Int) + 2 * 3 ≤ toSigned 32 (WasmArrayInstanceSize ia32 ⟨2⟩ ⟨3⟩) := by
  have h := C3_array_size_aligned ia32 ⟨2⟩ ⟨3⟩ (by decide) (by decide) (by decide)
  have h16 : (ia32.WasmArray_kHeaderSize : Int) +
      RoundUp ((⟨2⟩ : Smi).value * (⟨3⟩ : Smi).value) ia32.kObjectAlignment = 16 := by decide
  exact ⟨h.1.trans h16, h.2.2.1, h.2.2.2⟩

/-! ## Allocation without a size check, and samples of the statements above -/

/-- With the allocator that always hands back an object, the builtin over an
arbitrary allocator is `WasmAllocateArray`. -/
theorem WasmAllocateArrayWith_Allocate (p : Platform) (frame : Frame) (heap : ManagedHeap)
    (map_index length element_size : Smi) :
    WasmAllocateArrayWith (fun h size_in_bytes => some (Allocate h size_in_bytes)) p frame heap
        map_index length element_size =
      WasmAllocateArray p frame heap map_index length element_size := by
  unfold WasmAllocateArrayWith WasmAllocateArray
  cases LoadFixedArrayElement (LoadInstanceFromFrame frame).managed_object_maps map_index with
  | none => rfl
  | some map => rfl

/-- With the allocator that always hands back an object, the builtin over an
arbitrary allocator is `WasmAllocateStruct`. -/
theorem WasmAllocateStructWith_Allocate (p : Platform) (frame : Frame) (heap : ManagedHeap)
    (map_index : Smi) :
    WasmAllocateStructWith (fun h size_in_bytes => some (Allocate h size_in_bytes)) p frame heap
        map_index =
      WasmAllocateStruct p frame heap map_index := by
  unfold WasmAllocateStructWith WasmAllocateStruct
  cases LoadFixedArrayElement (LoadInstanceFromFrame frame).managed_object_maps map_index with
  | none => rfl
  | some map => rfl

/-- Witness of C5, the scenario `TableInit(dst = table size limit, src = 0,
size = 1)` on the 64-bit build: the destination is forwarded as the limit itself. -/
theorem C5_table_builtins_forward_clamped_witness :
    WasmTableInit x64 sampleFrame 10000000 0 1 ⟨2⟩ ⟨3⟩ =
      ⟨[], .TailCallRuntime ⟨.kWasmTableInit, ⟨7⟩,
        [.Instance sampleFrame.wasm_instance, .Smi ⟨2⟩, .Smi ⟨3⟩,
          .Smi ⟨10000000⟩, .Smi ⟨0⟩, .Smi ⟨1⟩]⟩⟩ ∧
    (SmiFromUint32WithSaturation x64 4294967295 (kCap x64)).value = 10000001 :=
  ⟨(C5_table_builtins_forward_clamped x64 (by decide) (by decide) sampleFrame 10000000 0 1
      ⟨2⟩ ⟨3⟩).2.1.trans (by decide),
    ((C5_table_builtins_forward_clamped x64 (by decide) (by decide) sampleFrame 10000000 0 1
      ⟨2⟩ ⟨3⟩).1 4294967295).trans (by decide)⟩

/-- Witness of C10 on the 64-bit build, for a table of the maximum length:
destination 4294967295 with size 2 wraps to 1 in 32 bits but stays out of range
after clamping. -/
theorem C10_clamp_preserves_bounds_check_witness :
    ∃ dst src size : Smi,
      (WasmTableInit x64 sampleFrame 4294967295 0 2 ⟨2⟩ ⟨3⟩).completion =
        .TailCallRuntime ⟨.kWasmTableInit, ⟨7⟩,
          [.Instance sampleFrame.wasm_instance, .Smi ⟨2⟩, .Smi ⟨3⟩,
            .Smi dst, .Smi src, .Smi size]⟩ ∧
      ¬ (dst.value + size.value ≤ ((10000000 : Nat) : Int)) ∧
      src.value + size.value ≤ ((10000000 : Nat) : Int) := by
  obtain ⟨dst, src, size, hinit, -, -, -, -, hdst, hsrc⟩ :=
    C10_clamp_preserves_bounds_check x64 (by decide) (by decide) 10000000 (by decide)
      sampleFrame 4294967295 0 2 ⟨2⟩ ⟨3⟩
  exact ⟨dst, src, size, hinit, fun h => absurd (hdst.1 h) (by decide), hsrc.2 (by decide)⟩

/-- Witness of C8: a Smi receiver yields undefined without a lookup, whatever the
lookup would answer. -/
theorem C8_get_own_property_witness :
    WasmGetOwnProperty x64 sampleFrame (fun _ => .if_bailout) (.Smi ⟨5⟩) ⟨11⟩ ⟨7⟩ =
      ⟨[], .Return (UndefinedConstant sampleFrame)⟩ ∧
    WasmGetOwnProperty x64 sampleFrame (fun _ => .if_found (.Smi ⟨9⟩))
        (.HeapObject 40 ⟨1057, 3⟩) ⟨11⟩ ⟨7⟩ =
      ⟨[.TryGetOwnProperty ⟨⟨7⟩, .HeapObject 40 ⟨1057, 3⟩, .HeapObject 40 ⟨1057, 3⟩,
          ⟨1057, 3⟩, 1057, ⟨11⟩⟩], .Return (.Smi ⟨9⟩)⟩ :=
  ⟨(C8_get_own_property x64 sampleFrame (fun _ => .if_bailout) (.Smi ⟨5⟩) ⟨11⟩ ⟨7⟩).1
      (Or.inl rfl),
    ((C8_get_own_property x64 sampleFrame (fun _ => .if_found (.Smi ⟨9⟩))
      (.HeapObject 40 ⟨1057, 3⟩) ⟨11⟩ ⟨7⟩).2 ⟨1057, 3⟩ rfl (by decide) rfl (by decide)).1
        (.Smi ⟨9⟩) rfl⟩

end V8
